import Mathlib

/-!
Verification of the SKU generator core: the cost cipher, alias resolution,
identifier assembly, submission validation, option canonicalization, and the
history filter, shallowly embedded from the TypeScript sources.
-/

namespace SKU

/-! JavaScript string/number primitives used by the embedding. -/

/-- Model of the JS `||` operator on strings: a non-empty (truthy) left operand
wins, otherwise the right operand is returned. -/
def jsOr (a b : String) : String := if a = "" then b else a

/-- Whitespace characters removed by `String.prototype.trim` (ASCII subset,
which covers every string these components handle). -/
def isJsSpace (c : Char) : Bool := c = ' ' || c = '\t' || c = '\n' || c = '\r'

/-- Trim on character lists: drop whitespace from both ends. -/
def trimChars (cs : List Char) : List Char :=
  ((cs.dropWhile isJsSpace).reverse.dropWhile isJsSpace).reverse

/-- Model of JS `s.trim()`. -/
def jsTrim (s : String) : String := String.mk (trimChars s.data)

/-- Model of JS `s.toLowerCase()` (ASCII). -/
def toLowerStr (s : String) : String := String.mk (s.data.map Char.toLower)

/-- Model of JS `s.toUpperCase()` (ASCII). -/
def toUpperStr (s : String) : String := String.mk (s.data.map Char.toUpper)

/-- The normalization applied by `getAlias`: `value.trim().toLowerCase()`. -/
def normalizeJs (s : String) : String := toLowerStr (jsTrim s)

/-- Decimal digit to its character, `0 ↦ '0'` and so on. -/
def digitChar (d : ℕ) : Char := Char.ofNat (48 + d)

/-- Little-endian decimal digits with explicit fuel so the kernel can reduce
concrete instances; agrees with `Nat.digits 10` whenever `n ≤ fuel`. -/
def decDigitsAux : ℕ → ℕ → List ℕ
  | _, 0 => []
  | 0, _ + 1 => []
  | fuel + 1, n + 1 => ((n + 1) % 10) :: decDigitsAux fuel ((n + 1) / 10)

/-- Most-significant-first decimal digits of `n`, as produced by JS
`Number.prototype.toString` for a non-negative integer (`0` renders as `"0"`). -/
def decDigits (n : ℕ) : List ℕ :=
  if n = 0 then [0] else (decDigitsAux n n).reverse

/-- Model of JS `Math.round`: round half toward positive infinity, i.e.
`⌊q + 1/2⌋`, written with integer operations so the kernel can evaluate it
(`jsRound_eq` below proves the floor characterization). -/
def jsRound (q : ℚ) : ℤ := (2 * q.num + q.den) / (2 * (q.den : ℤ))

/-- The rounding model is exactly `⌊q + 1/2⌋`. -/
lemma jsRound_eq (q : ℚ) : jsRound q = ⌊q + 1/2⌋ := by
  have hd : ((q.den : ℚ)) ≠ 0 := by exact_mod_cast q.den_nz
  have hq : (q.num : ℚ) = q * (q.den : ℚ) := (div_eq_iff hd).mp (Rat.num_div_den q)
  have h1 : q + 1/2 = ((2 * q.num + (q.den : ℤ) : ℤ) : ℚ) / ((2 * q.den : ℕ) : ℚ) := by
    push_cast
    field_simp
    rw [hq]
    ring
  rw [jsRound, h1, Rat.floor_intCast_div_natCast]
  push_cast
  ring_nf

/-- Characters of JS `i.toString()` for an integer: optional minus sign
followed by the decimal digits of the magnitude. -/
def intChars (i : ℤ) : List Char :=
  (if i < 0 then ['-'] else []) ++ (decDigits i.natAbs).map digitChar

/-! The cost cipher, from the cost-encoder module. -/

/-- The CRAZY WOMAN digit-to-letter table; characters outside the ten digit
keys are absent (JS indexing yields `undefined`). -/
def CRAZY_WOMAN_MAP (c : Char) : Option Char :=
  if c = '0' then some 'C'
  else if c = '1' then some 'R'
  else if c = '2' then some 'A'
  else if c = '3' then some 'Z'
  else if c = '4' then some 'Y'
  else if c = '5' then some 'W'
  else if c = '6' then some 'O'
  else if c = '7' then some 'M'
  else if c = '8' then some 'A'
  else if c = '9' then some 'N'
  else none

/-- Encode an already-parsed numeric cost: round, render the decimal string,
and map each character through the table (`undefined` contributes `''`). -/
def encodeCostNum (q : ℚ) : String :=
  String.mk ((intChars (jsRound q)).filterMap CRAZY_WOMAN_MAP)

/-- The full `encodeCost`: `none` models a parse producing `NaN`, for which
the function returns the placeholder. -/
def encodeCost : Option ℚ → String
  | none => "---"
  | some q => encodeCostNum q

/-- Model of the JS `parseFloat` builtin restricted to unsigned integer
literals, the only shapes evaluated by these claims; anything else is `none`
(`NaN`). -/
def jsParseFloat (s : String) : Option ℚ :=
  if s.data ≠ [] ∧ s.data.all Char.isDigit
  then some ((s.data.foldl (fun a c => 10 * a + (c.toNat - 48)) 0 : ℕ) : ℚ)
  else none

/-- The decoder's reverse table; unknown characters map to `'0'`
(the `|| '0'` default). -/
def reverseMap (c : Char) : Char :=
  if c = 'C' then '0'
  else if c = 'R' then '1'
  else if c = 'A' then '2'
  else if c = 'Z' then '3'
  else if c = 'Y' then '4'
  else if c = 'W' then '5'
  else if c = 'O' then '6'
  else if c = 'M' then '7'
  else if c = 'N' then '9'
  else '0'

/-- Model of JS `parseInt(s, 10)` on a string of decimal digit characters:
`NaN` (i.e. `none`) exactly when the string is empty. -/
def parseIntDigits (cs : List Char) : Option ℕ :=
  if cs.isEmpty then none
  else some (cs.foldl (fun a c => 10 * a + (c.toNat - 48)) 0)

/-- The full `decodeCost`: uppercase, map every character through the reverse
table, and parse the resulting digit string. -/
def decodeCost (s : String) : Option ℕ :=
  parseIntDigits (s.data.map (fun c => reverseMap c.toUpper))

/-! Support lemmas about the decimal-digit model and the cipher. -/

lemma decDigitsAux_eq : ∀ fuel n : ℕ, n ≤ fuel → decDigitsAux fuel n = Nat.digits 10 n := by
  intro fuel
  induction fuel with
  | zero =>
    intro n hn
    interval_cases n
    simp [decDigitsAux]
  | succ fuel ih =>
    intro n hn
    match n with
    | 0 => simp [decDigitsAux]
    | m + 1 =>
      rw [decDigitsAux, Nat.digits_def' (by norm_num : (1:ℕ) < 10) (Nat.succ_pos m)]
      have hdiv : (m + 1) / 10 ≤ fuel := by
        have := Nat.div_lt_self (Nat.succ_pos m) (by norm_num : 1 < 10)
        omega
      rw [ih _ hdiv]

lemma decDigits_eq_digits (n : ℕ) (hn : n ≠ 0) : decDigits n = (Nat.digits 10 n).reverse := by
  rw [decDigits, if_neg hn, decDigitsAux_eq n n le_rfl]

lemma decDigits_length (n : ℕ) : (decDigits n).length = Nat.log 10 n + 1 := by
  by_cases hn : n = 0
  · subst hn
    simp [decDigits, Nat.log_zero_right]
  · rw [decDigits_eq_digits n hn, List.length_reverse, Nat.digits_len 10 n (by norm_num) hn]

lemma decDigits_lt (n : ℕ) : ∀ d ∈ decDigits n, d < 10 := by
  intro d hd
  by_cases hn : n = 0
  · subst hn
    simp [decDigits] at hd
    omega
  · rw [decDigits_eq_digits n hn, List.mem_reverse] at hd
    exact Nat.digits_lt_base (by norm_num) hd

lemma filterMap_digitChar_length :
    ∀ l : List ℕ, (∀ d ∈ l, d < 10) →
      ((l.map digitChar).filterMap CRAZY_WOMAN_MAP).length = l.length := by
  intro l
  induction l with
  | nil => intro _; rfl
  | cons d t ih =>
    intro h
    have hd : d < 10 := h d (List.mem_cons_self d t)
    have hsome : (CRAZY_WOMAN_MAP (digitChar d)).isSome := by
      interval_cases d <;> decide
    obtain ⟨c, hc⟩ := Option.isSome_iff_exists.mp hsome
    rw [List.map_cons, List.filterMap_cons, hc, List.length_cons,
      ih fun x hx => h x (List.mem_cons_of_mem d hx)]
    simp

lemma jsRound_intCast (i : ℤ) : jsRound (i : ℚ) = i := by
  simp only [jsRound, Rat.intCast_num, Rat.intCast_den]
  omega

lemma jsRound_natCast (n : ℕ) : jsRound (n : ℚ) = (n : ℤ) := by
  have : ((n : ℤ) : ℚ) = (n : ℚ) := by push_cast; rfl
  rw [← this, jsRound_intCast]

lemma encodeCost_natCast (n : ℕ) :
    encodeCost (some (n : ℚ)) =
      String.mk (((decDigits n).map digitChar).filterMap CRAZY_WOMAN_MAP) := by
  simp only [encodeCost, encodeCostNum, intChars, jsRound_natCast]
  rw [if_neg (by omega : ¬((n : ℤ) < 0)), Int.natAbs_ofNat]
  rfl

/-! Claims about the cost cipher. -/

/-- C3: the digit-to-letter table is exactly 0→C, 1→R, 2→A, 3→Z, 4→Y, 5→W,
6→O, 7→M, 8→A, 9→N, and decoding the letter a digit encodes to recovers the
digit, except 8, which decodes to 2. -/
theorem C3_cipher_table :
    (CRAZY_WOMAN_MAP '0' = some 'C' ∧ CRAZY_WOMAN_MAP '1' = some 'R' ∧
     CRAZY_WOMAN_MAP '2' = some 'A' ∧ CRAZY_WOMAN_MAP '3' = some 'Z' ∧
     CRAZY_WOMAN_MAP '4' = some 'Y' ∧ CRAZY_WOMAN_MAP '5' = some 'W' ∧
     CRAZY_WOMAN_MAP '6' = some 'O' ∧ CRAZY_WOMAN_MAP '7' = some 'M' ∧
     CRAZY_WOMAN_MAP '8' = some 'A' ∧ CRAZY_WOMAN_MAP '9' = some 'N')
    ∧ ∀ d : ℕ, d < 10 →
        decodeCost (encodeCost (some (d : ℚ))) = some (if d = 8 then 2 else d) := by
  constructor
  · decide
  · intro d hd
    interval_cases d <;> decide

/-- Witness for C3 at the collision digit 8. -/
theorem C3_cipher_table_witness :
    (8 : ℕ) < 10 ∧
      decodeCost (encodeCost (some ((8 : ℕ) : ℚ))) = some (if (8 : ℕ) = 8 then 2 else 8) :=
  ⟨by decide, C3_cipher_table.2 8 (by decide)⟩

/-- C4: encodeCost on a parsed non-negative number first rounds (ties
half-away-from-zero, which for non-negative inputs is the floor of q + 1/2),
then emits one cipher letter per decimal digit with no padding, so the output
length is the digit count of the rounded value; a failed parse yields the
3-character placeholder. -/
theorem C4_encode_shape :
    (∀ q : ℚ, 0 ≤ q →
      encodeCostNum q = encodeCostNum (((if q - ⌊q⌋ < 1/2 then ⌊q⌋ else ⌊q⌋ + 1) : ℤ) : ℚ))
    ∧ (∀ n : ℕ, n < 10 ^ 6 → (encodeCost (some (n : ℚ))).length = Nat.log 10 n + 1)
    ∧ encodeCost (jsParseFloat "100") = "RCC"
    ∧ encodeCost (jsParseFloat "0500") = "WCC"
    ∧ encodeCost (jsParseFloat "1500") = "RWCC"
    ∧ encodeCost (jsParseFloat "9999") = "NNNN"
    ∧ encodeCost none = "---" := by
  refine ⟨?_, ?_, by decide, by decide, by decide, by decide, by decide⟩
  · intro q _
    have h : jsRound q = (if q - ⌊q⌋ < 1/2 then ⌊q⌋ else ⌊q⌋ + 1) := by
      rw [jsRound_eq]
      by_cases hc : q - ⌊q⌋ < 1/2
      · rw [if_pos hc]
        refine Int.floor_eq_iff.mpr ⟨?_, ?_⟩
        · have := Int.floor_le q
          linarith
        · linarith
      · rw [if_neg hc]
        have hc2 : 1/2 ≤ q - ⌊q⌋ := not_lt.mp hc
        have hfl := Int.lt_floor_add_one q
        rw [Int.floor_eq_iff]
        push_cast
        constructor
        · linarith
        · linarith
    simp only [encodeCostNum, h, jsRound_intCast]
  · intro n _
    rw [encodeCost_natCast]
    show (((decDigits n).map digitChar).filterMap CRAZY_WOMAN_MAP).length = _
    rw [filterMap_digitChar_length _ (decDigits_lt n), decDigits_length]

/-- Witness for C4: the rounding conjunct at 5/2 and the length conjunct
at 100. -/
theorem C4_encode_shape_witness :
    ((0 : ℚ) ≤ Rat.divInt 5 2 ∧
      encodeCostNum (Rat.divInt 5 2) =
        encodeCostNum (((if (Rat.divInt 5 2 : ℚ) - ⌊(Rat.divInt 5 2 : ℚ)⌋ < 1/2
          then ⌊(Rat.divInt 5 2 : ℚ)⌋ else ⌊(Rat.divInt 5 2 : ℚ)⌋ + 1) : ℤ) : ℚ))
    ∧ ((100 : ℕ) < 10 ^ 6 ∧
        (encodeCost (some ((100 : ℕ) : ℚ))).length = Nat.log 10 100 + 1) :=
  ⟨⟨by decide, C4_encode_shape.1 (Rat.divInt 5 2) (by decide)⟩,
   ⟨by norm_num, C4_encode_shape.2.1 100 (by norm_num)⟩⟩

/-- C9: the minus sign of a negative rounded cost maps to the empty string,
so a negative integer encodes exactly like its absolute value. -/
theorem C9_negative_sign_dropped :
    ∀ i : ℤ, i < 0 → encodeCost (some (i : ℚ)) = encodeCost (some ((-i : ℤ) : ℚ)) := by
  intro i hi
  simp only [encodeCost, encodeCostNum, jsRound_intCast]
  have h1 : intChars i = '-' :: (decDigits i.natAbs).map digitChar := by
    rw [intChars, if_pos hi]
    rfl
  have h2 : intChars (-i) = (decDigits i.natAbs).map digitChar := by
    rw [intChars, if_neg (by omega : ¬(-i < 0)), Int.natAbs_neg]
    rfl
  rw [h1, h2, List.filterMap_cons_none (by decide : CRAZY_WOMAN_MAP '-' = none)]

/-- Witness for C9 at cost -500, which encodes as "WCC" like 500. -/
theorem C9_negative_sign_dropped_witness :
    (-500 : ℤ) < 0 ∧
      encodeCost (some ((-500 : ℤ) : ℚ)) = encodeCost (some ((-(-500 : ℤ) : ℤ) : ℚ)) ∧
      encodeCost (some ((-500 : ℤ) : ℚ)) = "WCC" :=
  ⟨by decide, C9_negative_sign_dropped (-500) (by decide), by decide⟩

/-- C10: decodeCost yields a natural number for every non-empty input (every
character maps to some digit), but the empty string parses to NaN, modeled as
`none`. -/
theorem C10_decode_totality :
    (∀ s : String, s ≠ "" → ∃ n : ℕ, decodeCost s = some n) ∧ decodeCost "" = none := by
  constructor
  · intro s hs
    have hd : s.data ≠ [] := by
      intro h
      apply hs
      cases s
      simp_all
    refine ⟨(s.data.map fun c => reverseMap c.toUpper).foldl
      (fun a c => 10 * a + (c.toNat - 48)) 0, ?_⟩
    simp only [decodeCost, parseIntDigits]
    rw [if_neg]
    simp [hd]
  · decide

/-- Witness for C10 at the decoder example "RAWC". -/
theorem C10_decode_totality_witness :
    "RAWC" ≠ "" ∧ (∃ n : ℕ, decodeCost "RAWC" = some n) ∧ decodeCost "RAWC" = some 1250 :=
  ⟨by decide, C10_decode_totality.1 "RAWC" (by decide), by decide⟩

/-! The dropdown data model and alias resolution, from the generator form. -/

/-- One dropdown option as fetched from the sheet service. -/
structure DropdownOption where
  value : String
  label : String
  «alias» : Option String
deriving DecidableEq

/-- The eight option categories keyed by `dropdownData`. -/
inductive Category
  | productGroups
  | productCategories
  | colors
  | sizes
  | locations
  | fabrics
  | natures
  | vendorCodes
deriving DecidableEq

/-- The in-memory dropdown data: one option list per category. -/
structure DropdownData where
  productGroups : List DropdownOption
  productCategories : List DropdownOption
  colors : List DropdownOption
  sizes : List DropdownOption
  locations : List DropdownOption
  fabrics : List DropdownOption
  natures : List DropdownOption
  vendorCodes : List DropdownOption
deriving DecidableEq

/-- Indexing, as in `dropdownData[field]`. -/
def DropdownData.get (d : DropdownData) : Category → List DropdownOption
  | .productGroups => d.productGroups
  | .productCategories => d.productCategories
  | .colors => d.colors
  | .sizes => d.sizes
  | .locations => d.locations
  | .fabrics => d.fabrics
  | .natures => d.natures
  | .vendorCodes => d.vendorCodes

/-- The hardcoded fallback alias tables, keyed by category and normalized
value; categories without a table yield `none` (the `field in` membership
check fails for them). -/
def HARDCODED_ALIASES : Category → String → Option String
  | .productGroups, v =>
    if v = "kurtaset" then some "KT"
    else if v = "kurta set" then some "KT"
    else if v = "kurta" then some "KU"
    else none
  | .natures, v =>
    if v = "printed" then some "PR"
    else if v = "solid" then some "SL"
    else if v = "embroidery" then some "EM"
    else none
  | .colors, v =>
    if v = "black" then some "BK"
    else if v = "white" then some "WH"
    else if v = "red" then some "RD"
    else if v = "blue" then some "BL"
    else if v = "green" then some "GR"
    else if v = "yellow" then some "YL"
    else if v = "pink" then some "PK"
    else none
  | _, _ => none

/-- The predicate of the `options.find` call: the trimmed lowercased value
or the trimmed lowercased label equals the normalized input. -/
def optMatches (norm : String) (o : DropdownOption) : Bool :=
  normalizeJs o.value = norm || normalizeJs o.label = norm

/-- The tail of `getAlias` after the canonical-data stage yields nothing:
static table entry if truthy, else the original raw value. -/
def fallbackOr (field : Category) (normalizedValue value : String) : String :=
  match HARDCODED_ALIASES field normalizedValue with
  | some h => if h = "" then value else h
  | none => value

/-- The alias resolver `getAlias`: empty input short-circuits to the empty
string; an empty option list short-circuits to the raw value; otherwise the
first option whose value or label matches supplies its alias when that alias
is truthy, and the static table and identity close the chain. -/
def getAlias (data : DropdownData) (field : Category) (value : String) : String :=
  if value = "" then ""
  else if data.get field = [] then value
  else
    match ((data.get field).find? (optMatches (normalizeJs value))).bind DropdownOption.alias with
    | some a => if a = "" then fallbackOr field (normalizeJs value) value else a
    | none => fallbackOr field (normalizeJs value) value

/-- The generator form state: ten string fields. -/
structure FormData where
  productGroup : String
  productCategory : String
  color : String
  size : String
  style : String
  location : String
  fabric : String
  nature : String
  vendorCode : String
  cost : String
deriving DecidableEq

/-- The identifier assembler `generateSKU` (the nine-token generator);
`parse` abstracts the `parseFloat` the cost encoder applies to the raw cost
string. -/
def generateSKU (data : DropdownData) (parse : String → Option ℚ) (fd : FormData) : String :=
  let encodedCost := if fd.cost ≠ "" then encodeCost (parse fd.cost) else "----"
  let productCategoryAlias := getAlias data .productCategories fd.productCategory
  let productGroupAlias := getAlias data .productGroups fd.productGroup
  let colorAlias := getAlias data .colors fd.color
  let fabricAlias := getAlias data .fabrics fd.fabric
  let natureAlias := getAlias data .natures fd.nature
  let locationAlias := getAlias data .locations fd.location
  let firstPart :=
    if productCategoryAlias ≠ "" ∧ productGroupAlias ≠ ""
    then productCategoryAlias ++ productGroupAlias
    else jsOr fd.productGroup "---"
  let parts : List String :=
    [firstPart,
     jsOr (jsOr colorAlias fd.color) "---",
     jsOr fd.size "--",
     jsOr fd.style "---",
     jsOr (jsOr locationAlias fd.location) "---",
     jsOr (jsOr fabricAlias fd.fabric) "---",
     jsOr (jsOr natureAlias fd.nature) "---",
     jsOr fd.vendorCode "------",
     encodedCost]
  String.intercalate "-" parts

/-! Support lemmas for the or-chains and alias resolution. -/

lemma jsOr_eq (a b : String) : jsOr a b = if a ≠ "" then a else b := by
  unfold jsOr
  by_cases h : a = "" <;> simp [h]

lemma jsOr_chain (a b c : String) :
    jsOr (jsOr a b) c = if a ≠ "" then a else if b ≠ "" then b else c := by
  unfold jsOr
  by_cases h : a = "" <;> by_cases h2 : b = "" <;> simp [h, h2]

lemma find?_ne_nil {l : List DropdownOption} {p : DropdownOption → Bool} {o : DropdownOption}
    (h : l.find? p = some o) : l ≠ [] := by
  intro hl
  rw [hl] at h
  simp at h

/-- The alias delivered by the canonical-data stage, when truthy. -/
def matchedAlias (data : DropdownData) (field : Category) (value : String) : Option String :=
  match ((data.get field).find? (optMatches (normalizeJs value))).bind DropdownOption.alias with
  | some a => if a = "" then none else some a
  | none => none

lemma getAlias_of_matched {data : DropdownData} {field : Category} {value a : String}
    (hv : value ≠ "") (hm : matchedAlias data field value = some a) :
    getAlias data field value = a := by
  unfold matchedAlias at hm
  rcases hfind : ((data.get field).find? (optMatches (normalizeJs value))).bind
      DropdownOption.alias with _ | b
  · rw [hfind] at hm
    simp at hm
  · have hne : data.get field ≠ [] := by
      rcases hf2 : (data.get field).find? (optMatches (normalizeJs value)) with _ | o
      · rw [hf2] at hfind
        simp at hfind
      · exact find?_ne_nil hf2
    rw [hfind] at hm
    by_cases hb : b = ""
    · simp [hb] at hm
    · simp [hb] at hm
      subst hm
      rw [getAlias, if_neg hv, if_neg hne, hfind]
      simp [hb]

lemma getAlias_of_unmatched {data : DropdownData} {field : Category} {value : String}
    (hv : value ≠ "") (hne : data.get field ≠ [])
    (hm : matchedAlias data field value = none) :
    getAlias data field value = fallbackOr field (normalizeJs value) value := by
  unfold matchedAlias at hm
  rw [getAlias, if_neg hv, if_neg hne]
  rcases hfind : ((data.get field).find? (optMatches (normalizeJs value))).bind
      DropdownOption.alias with _ | b
  · rfl
  · rw [hfind] at hm
    by_cases hb : b = ""
    · simp [hb]
    · simp [hb] at hm

/-- The empty dropdown state: no canonical data loaded for any category. -/
def emptyDropdownData : DropdownData := ⟨[], [], [], [], [], [], [], []⟩

/-! Claims about alias resolution and assembly. -/

/-- C2 counterexample: with all option lists empty, `getAlias` returns the
raw value "kurta" rather than the static-table alias "KU" the claim
predicts. -/
theorem C2_claim_counterexample :
    getAlias emptyDropdownData Category.productGroups "kurta" ≠ "KU" ∧
      getAlias emptyDropdownData Category.productGroups "kurta" = "kurta" := by
  constructor <;> decide

/-- C2 amended: the precedence chain (canonical alias, then static fallback,
then identity) holds exactly when the category's option list is non-empty;
when the list is empty the resolver returns the raw value directly, skipping
the static table, so with no canonical data loaded both "kurta" and
"unknown-thing" come back unchanged. -/
theorem C2_alias_precedence :
    (∀ (data : DropdownData) (field : Category) (value a : String),
      value ≠ "" → matchedAlias data field value = some a →
        getAlias data field value = a)
    ∧ (∀ (data : DropdownData) (field : Category) (value h : String),
        value ≠ "" → data.get field ≠ [] →
        matchedAlias data field value = none →
        HARDCODED_ALIASES field (normalizeJs value) = some h → h ≠ "" →
        getAlias data field value = h)
    ∧ (∀ (data : DropdownData) (field : Category) (value : String),
        value ≠ "" → data.get field ≠ [] →
        matchedAlias data field value = none →
        HARDCODED_ALIASES field (normalizeJs value) = none →
        getAlias data field value = value)
    ∧ (∀ (data : DropdownData) (field : Category) (value : String),
        value ≠ "" → data.get field = [] →
        getAlias data field value = value)
    ∧ getAlias emptyDropdownData Category.productGroups "kurta" = "kurta"
    ∧ getAlias emptyDropdownData Category.productGroups "unknown-thing" = "unknown-thing" := by
  refine ⟨?_, ?_, ?_, ?_, by decide, by decide⟩
  · intro data field value a hv hm
    exact getAlias_of_matched hv hm
  · intro data field value h hv hne hm hh hhne
    rw [getAlias_of_unmatched hv hne hm]
    simp [fallbackOr, hh, hhne]
  · intro data field value hv hne hm hh
    rw [getAlias_of_unmatched hv hne hm]
    simp [fallbackOr, hh]
  · intro data field value hv hnil
    rw [getAlias, if_neg hv, if_pos hnil]

/-- Witness for C2: each hypothesis-bearing branch of the amended precedence
theorem, discharged at concrete data. -/
theorem C2_alias_precedence_witness :
    (getAlias ⟨[⟨"kurta-set", "Kurta Set", some "KT"⟩], [], [], [], [], [], [], []⟩
        Category.productGroups "kurta-set" = "KT")
    ∧ (getAlias ⟨[⟨"x", "x", none⟩], [], [], [], [], [], [], []⟩
        Category.productGroups "kurta" = "KU")
    ∧ (getAlias ⟨[⟨"x", "x", none⟩], [], [], [], [], [], [], []⟩
        Category.productGroups "zzz" = "zzz")
    ∧ getAlias emptyDropdownData Category.productGroups "kurta" = "kurta" :=
  ⟨C2_alias_precedence.1 _ Category.productGroups "kurta-set" "KT" (by decide) (by decide),
   C2_alias_precedence.2.1 _ Category.productGroups "kurta" "KU"
     (by decide) (by decide) (by decide) (by decide) (by decide),
   C2_alias_precedence.2.2.1 _ Category.productGroups "zzz"
     (by decide) (by decide) (by decide) (by decide),
   C2_alias_precedence.2.2.2.1 emptyDropdownData Category.productGroups "kurta"
     (by decide) (by decide)⟩

/-- The canonical test option of C5. -/
def kurtaOpt : DropdownOption := ⟨"kurta-set", "Kurta Set", some "KT"⟩

/-- C5: resolving the empty string yields the empty string for every category
and any data; and when the option list's first match for either spelling is
the kurta-set option, both the label spelling "Kurta Set" and the value
spelling "kurta-set" resolve to its alias "KT" (trim- and case-insensitive
match on value or label). -/
theorem C5_resolve_empty_and_kurta :
    (∀ (data : DropdownData) (field : Category), getAlias data field "" = "")
    ∧ (∀ (data : DropdownData) (field : Category),
        ((data.get field).find? (optMatches (normalizeJs "Kurta Set")) = some kurtaOpt) →
        ((data.get field).find? (optMatches (normalizeJs "kurta-set")) = some kurtaOpt) →
        getAlias data field "Kurta Set" = "KT" ∧ getAlias data field "kurta-set" = "KT") := by
  constructor
  · intro data field
    rfl
  · intro data field h1 h2
    constructor
    · refine getAlias_of_matched (by decide) ?_
      rw [matchedAlias, h1]
      rfl
    · refine getAlias_of_matched (by decide) ?_
      rw [matchedAlias, h2]
      rfl

/-- Witness for C5 with a singleton option list holding the kurta-set
option. -/
theorem C5_resolve_empty_and_kurta_witness :
    getAlias ⟨[], [], [kurtaOpt], [], [], [], [], []⟩ Category.colors "Kurta Set" = "KT" ∧
      getAlias ⟨[], [], [kurtaOpt], [], [], [], [], []⟩ Category.colors "kurta-set" = "KT" :=
  C5_resolve_empty_and_kurta.2 ⟨[], [], [kurtaOpt], [], [], [], [], []⟩ Category.colors
    (by decide) (by decide)

/-- C1: the assembler emits exactly nine dash-joined tokens in the fixed
order first-part, color, size, style, location, fabric, nature, vendor,
encoded cost, each falling back to its placeholder; the location token
appears exactly once, in fifth position. -/
theorem C1_nine_token_assembly :
    ∀ (data : DropdownData) (parse : String → Option ℚ) (fd : FormData),
      generateSKU data parse fd = String.intercalate "-"
        [if getAlias data .productCategories fd.productCategory ≠ "" ∧
            getAlias data .productGroups fd.productGroup ≠ ""
         then getAlias data .productCategories fd.productCategory ++
            getAlias data .productGroups fd.productGroup
         else if fd.productGroup ≠ "" then fd.productGroup else "---",
         if getAlias data .colors fd.color ≠ "" then getAlias data .colors fd.color
         else if fd.color ≠ "" then fd.color else "---",
         if fd.size ≠ "" then fd.size else "--",
         if fd.style ≠ "" then fd.style else "---",
         if getAlias data .locations fd.location ≠ "" then getAlias data .locations fd.location
         else if fd.location ≠ "" then fd.location else "---",
         if getAlias data .fabrics fd.fabric ≠ "" then getAlias data .fabrics fd.fabric
         else if fd.fabric ≠ "" then fd.fabric else "---",
         if getAlias data .natures fd.nature ≠ "" then getAlias data .natures fd.nature
         else if fd.nature ≠ "" then fd.nature else "---",
         if fd.vendorCode ≠ "" then fd.vendorCode else "------",
         if fd.cost ≠ "" then encodeCost (parse fd.cost) else "----"] := by
  intro data parse fd
  simp only [generateSKU, jsOr_chain]
  simp only [jsOr_eq]

/-! The submission validator, from the generator form. -/

/-- The completeness check `isFormComplete`: the `&&` chain of the ten field
truthiness tests. -/
def isFormComplete (fd : FormData) : Bool :=
  (fd.productGroup ≠ "" && fd.productCategory ≠ "" && fd.color ≠ "" && fd.size ≠ "" &&
   fd.style ≠ "" && fd.location ≠ "" && fd.fabric ≠ "" && fd.nature ≠ "" &&
   fd.vendorCode ≠ "" && fd.cost ≠ "" : Bool)

/-- The `getMissingFields` helper: sequential pushes of display names for
each empty field. -/
def getMissingFields (fd : FormData) : List String :=
  (if fd.productGroup = "" then ["Product Group"] else []) ++
  ((if fd.productCategory = "" then ["Product Category"] else []) ++
  ((if fd.color = "" then ["Color"] else []) ++
  ((if fd.size = "" then ["Size"] else []) ++
  ((if fd.style = "" then ["Style Number"] else []) ++
  ((if fd.location = "" then ["Location"] else []) ++
  ((if fd.fabric = "" then ["Fabric"] else []) ++
  ((if fd.nature = "" then ["Nature"] else []) ++
  ((if fd.vendorCode = "" then ["Vendor Code"] else []) ++
  (if fd.cost = "" then ["Cost"] else [])))))))))

/-- Display name and accessor for each of the ten fields, in the fixed form
order. -/
def FIELD_LIST : List (String × (FormData → String)) :=
  [("Product Group", FormData.productGroup),
   ("Product Category", FormData.productCategory),
   ("Color", FormData.color),
   ("Size", FormData.size),
   ("Style Number", FormData.style),
   ("Location", FormData.location),
   ("Fabric", FormData.fabric),
   ("Nature", FormData.nature),
   ("Vendor Code", FormData.vendorCode),
   ("Cost", FormData.cost)]

/-- The specification-side description of the missing-field list: the names
of exactly the empty fields, in the fixed field order. -/
def missingSpec (fd : FormData) : List String :=
  (FIELD_LIST.filter (fun p => p.2 fd = "")).map Prod.fst

/-- An example record with only productGroup and cost set. -/
def exampleRecord : FormData := ⟨"kurta", "", "", "", "", "", "", "", "", "500"⟩

lemma ite_singleton_append (c : Prop) [Decidable c] (x : String) (l : List String) :
    (if c then [x] else []) ++ l = if c then x :: l else l := by
  by_cases h : c <;> simp [h]

/-- C6: isFormComplete is true iff all ten fields are non-empty, and
getMissingFields returns exactly the display names of the empty fields in
the fixed field order; the example record with only productGroup and cost
set is incomplete and reports the other eight fields in order. -/
theorem C6_validator :
    (∀ fd : FormData,
      (isFormComplete fd = true ↔
        (fd.productGroup ≠ "" ∧ fd.productCategory ≠ "" ∧ fd.color ≠ "" ∧ fd.size ≠ "" ∧
         fd.style ≠ "" ∧ fd.location ≠ "" ∧ fd.fabric ≠ "" ∧ fd.nature ≠ "" ∧
         fd.vendorCode ≠ "" ∧ fd.cost ≠ ""))
      ∧ getMissingFields fd = missingSpec fd)
    ∧ isFormComplete exampleRecord = false
    ∧ getMissingFields exampleRecord =
        ["Product Category", "Color", "Size", "Style Number", "Location", "Fabric",
         "Nature", "Vendor Code"] := by
  refine ⟨?_, by decide, by decide⟩
  intro fd
  constructor
  · simp [isFormComplete, and_assoc]
  · simp only [getMissingFields, missingSpec, FIELD_LIST, List.filter_cons, List.filter_nil,
      List.map_nil, decide_eq_true_eq, ite_singleton_append, List.append_nil,
      apply_ite (List.map Prod.fst), List.map_cons]

/-! The history filter, from the history page. -/

/-- A fetched submission record; any field may be absent (`undefined`) in
the raw payload, modeled with Option. -/
structure SKUSubmission where
  sku : Option String
  productGroup : Option String
  productCategory : Option String
  color : Option String
  size : Option String
  style : Option String
  location : Option String
  fabric : Option String
  nature : Option String
  vendorCode : Option String
  cost : Option String
  createdBy : Option String
deriving DecidableEq

/-- The column-filter state of the history page. -/
structure Filters where
  sku : String
  productGroup : String
  productCategory : String
  color : String
  size : String
  style : String
  location : String
  fabric : String
  nature : String
  vendorCode : String
  cost : String
  createdBy : String
deriving DecidableEq

/-- Model of JS `hay.includes(needle)` on character lists. -/
def containsAux (needle : List Char) : List Char → Bool
  | [] => needle.isEmpty
  | c :: rest => needle.isPrefixOf (c :: rest) || containsAux needle rest

/-- Model of JS `hay.includes(needle)` on strings. -/
def jsIncludes (hay needle : String) : Bool := containsAux needle.data hay.data

/-- The global-search stage: the (already lowercased) query must occur in
one of sku, productGroup, productCategory, color, each lowercased with
absent fields reading as the empty string. -/
def globalPass (query : String) (sub : SKUSubmission) : Bool :=
  jsIncludes ((sub.sku.map toLowerStr).getD "") query ||
  jsIncludes ((sub.productGroup.map toLowerStr).getD "") query ||
  jsIncludes ((sub.productCategory.map toLowerStr).getD "") query ||
  jsIncludes ((sub.color.map toLowerStr).getD "") query

/-- The per-column helper `check`: an empty filter imposes nothing,
otherwise case-insensitive substring containment on the stringified field. -/
def check (val : Option String) (filt : String) : Bool :=
  if filt = "" then true
  else jsIncludes (toLowerStr (val.getD "")) (toLowerStr filt)

/-- All twelve column checks combined with AND. -/
def columnsPass (f : Filters) (sub : SKUSubmission) : Bool :=
  check sub.sku f.sku && check sub.productGroup f.productGroup &&
  check sub.productCategory f.productCategory && check sub.color f.color &&
  check sub.size f.size && check sub.style f.style &&
  check sub.location f.location && check sub.fabric f.fabric &&
  check sub.nature f.nature && check sub.vendorCode f.vendorCode &&
  check sub.cost f.cost && check sub.createdBy f.createdBy

/-- The filtering effect of the history page: the global stage runs only
when the trimmed query is non-empty, then the column stage runs. -/
def historyFilter (subs : List SKUSubmission) (searchQuery : String) (f : Filters) :
    List SKUSubmission :=
  let result := if jsTrim searchQuery ≠ ""
    then subs.filter (globalPass (toLowerStr searchQuery))
    else subs
  result.filter (columnsPass f)

/-- Claim-side notion: the query occurs case-insensitively in an optional
field, the field reading as empty when absent. -/
def containsCI (field : Option String) (q : String) : Bool :=
  jsIncludes (toLowerStr (field.getD "")) (toLowerStr q)

/-- Claim-side single-record predicate: pass the global stage (vacuous when
the trimmed query is empty) AND every active column filter. -/
def specMatches (q : String) (f : Filters) (sub : SKUSubmission) : Bool :=
  (jsTrim q = "" ||
    (containsCI sub.sku q || containsCI sub.productGroup q ||
     containsCI sub.productCategory q || containsCI sub.color q)) &&
  ((f.sku = "" || containsCI sub.sku f.sku) &&
   (f.productGroup = "" || containsCI sub.productGroup f.productGroup) &&
   (f.productCategory = "" || containsCI sub.productCategory f.productCategory) &&
   (f.color = "" || containsCI sub.color f.color) &&
   (f.size = "" || containsCI sub.size f.size) &&
   (f.style = "" || containsCI sub.style f.style) &&
   (f.location = "" || containsCI sub.location f.location) &&
   (f.fabric = "" || containsCI sub.fabric f.fabric) &&
   (f.nature = "" || containsCI sub.nature f.nature) &&
   (f.vendorCode = "" || containsCI sub.vendorCode f.vendorCode) &&
   (f.cost = "" || containsCI sub.cost f.cost) &&
   (f.createdBy = "" || containsCI sub.createdBy f.createdBy))

lemma map_getD_toLower (o : Option String) :
    (o.map toLowerStr).getD "" = toLowerStr (o.getD "") := by
  cases o <;> rfl

lemma check_eq (val : Option String) (filt : String) :
    check val filt = (filt = "" || containsCI val filt) := by
  by_cases h : filt = "" <;> simp [check, containsCI, h]

lemma globalPass_eq (q : String) (sub : SKUSubmission) :
    globalPass (toLowerStr q) sub =
      (containsCI sub.sku q || containsCI sub.productGroup q ||
       containsCI sub.productCategory q || containsCI sub.color q) := by
  simp [globalPass, containsCI, map_getD_toLower]

lemma columnsPass_eq (f : Filters) (sub : SKUSubmission) :
    columnsPass f sub =
      ((f.sku = "" || containsCI sub.sku f.sku) &&
       (f.productGroup = "" || containsCI sub.productGroup f.productGroup) &&
       (f.productCategory = "" || containsCI sub.productCategory f.productCategory) &&
       (f.color = "" || containsCI sub.color f.color) &&
       (f.size = "" || containsCI sub.size f.size) &&
       (f.style = "" || containsCI sub.style f.style) &&
       (f.location = "" || containsCI sub.location f.location) &&
       (f.fabric = "" || containsCI sub.fabric f.fabric) &&
       (f.nature = "" || containsCI sub.nature f.nature) &&
       (f.vendorCode = "" || containsCI sub.vendorCode f.vendorCode) &&
       (f.cost = "" || containsCI sub.cost f.cost) &&
       (f.createdBy = "" || containsCI sub.createdBy f.createdBy)) := by
  simp only [columnsPass, check_eq]

/-- C7: the history filter returns exactly the records passing the global
query stage AND every active column filter, in input order (the result is a
sublist of the input), with absent fields read as empty strings. -/
theorem C7_history_filter :
    ∀ (subs : List SKUSubmission) (q : String) (f : Filters),
      historyFilter subs q f = subs.filter (specMatches q f)
      ∧ (historyFilter subs q f).Sublist subs := by
  intro subs q f
  have hmain : historyFilter subs q f = subs.filter (specMatches q f) := by
    by_cases hq : jsTrim q = ""
    · rw [historyFilter]
      simp only [hq, ne_eq, not_true_eq_false, if_false]
      apply List.filter_congr
      intro s _
      simp [specMatches, columnsPass_eq, hq]
    · rw [historyFilter]
      simp only [ne_eq, hq, not_false_eq_true, if_true, List.filter_filter]
      apply List.filter_congr
      intro s _
      have hs : specMatches q f s = (globalPass (toLowerStr q) s && columnsPass f s) := by
        simp [specMatches, globalPass_eq, columnsPass_eq, hq]
      rw [hs]
      exact Bool.and_comm _ _
  exact ⟨hmain, hmain ▸ List.filter_sublist subs⟩

/-! The option canonicalizer, from the sheet service. -/

/-- One raw item of the external payload: a plain string, an object with
optional value, label and alias fields, or anything else (malformed). -/
inductive RawItem
  | str (s : String)
  | obj (value label «alias» : Option String)
  | other
deriving DecidableEq

/-- The per-item normalization inside `transformData`: strings duplicate
into value and label; objects fall back between value and label; anything
else becomes the empty option. -/
def transformItem : RawItem → DropdownOption
  | .str s => ⟨s, s, none⟩
  | .obj v l a =>
    ⟨jsOr (jsOr (v.getD "") (l.getD "")) "",
     jsOr (jsOr (l.getD "") (v.getD "")) "", a⟩
  | .other => ⟨"", "", none⟩

/-- The canonicalizer `transformData`: normalize every item, then drop the
ones whose value resolved empty. -/
def transformData (items : List RawItem) : List DropdownOption :=
  (items.map transformItem).filter (fun o => o.value ≠ "")

/-- Re-feeding an output option to the canonicalizer presents it as an
object whose value and label are present and whose alias passes through. -/
def optionToRaw (o : DropdownOption) : RawItem :=
  .obj (some o.value) (some o.label) o.alias

lemma jsOr_empty_right (a : String) : jsOr a "" = a := by
  unfold jsOr
  by_cases h : a = "" <;> simp [h]

lemma jsOr_eq_empty (a b : String) : jsOr a b = "" ↔ a = "" ∧ b = "" := by
  unfold jsOr
  by_cases h : a = "" <;> simp [h]

lemma transformData_mem (items : List RawItem) :
    ∀ o ∈ transformData items, o.value ≠ "" ∧ o.label ≠ "" := by
  intro o ho
  rw [transformData, List.mem_filter] at ho
  obtain ⟨hmem, hval⟩ := ho
  have hv : o.value ≠ "" := by simpa using hval
  refine ⟨hv, ?_⟩
  obtain ⟨item, _, hitem⟩ := List.mem_map.mp hmem
  cases item with
  | str s =>
    subst hitem
    exact hv
  | obj v l a =>
    subst hitem
    simp only [transformItem, jsOr_empty_right] at hv ⊢
    intro hlab
    rw [jsOr_eq_empty] at hlab
    exact hv (by rw [jsOr_eq_empty]; exact ⟨hlab.2, hlab.1⟩)
  | other =>
    subst hitem
    simp [transformItem] at hv

lemma transformItem_optionToRaw {o : DropdownOption}
    (hv : o.value ≠ "") (hl : o.label ≠ "") :
    transformItem (optionToRaw o) = o := by
  simp only [optionToRaw, transformItem, Option.getD_some, jsOr_empty_right]
  rw [jsOr, if_neg hv, jsOr, if_neg hl]

lemma transformData_fixed (l : List DropdownOption)
    (h : ∀ o ∈ l, o.value ≠ "" ∧ o.label ≠ "") :
    transformData (l.map optionToRaw) = l := by
  induction l with
  | nil => rfl
  | cons o t ih =>
    have ho := h o (List.mem_cons_self o t)
    have htail : ∀ x ∈ t, x.value ≠ "" ∧ x.label ≠ "" :=
      fun x hx => h x (List.mem_cons_of_mem o hx)
    show ((optionToRaw o :: t.map optionToRaw).map transformItem).filter _ = o :: t
    rw [List.map_cons, transformItem_optionToRaw ho.1 ho.2, List.filter_cons,
      if_pos (by simp [ho.1])]
    exact congrArg (o :: ·) (ih htail)

/-- C8: the option canonicalizer is idempotent: applying transformData to
its own output returns that output unchanged. -/
theorem C8_canonicalizer_idempotent :
    ∀ items : List RawItem,
      transformData ((transformData items).map optionToRaw) = transformData items :=
  fun items => transformData_fixed _ (transformData_mem items)

end SKU
